import Mathlib

/-!
Verification of the DevHive multi-agent orchestration core.

This file shallowly embeds the swarm workflow (packages/workflows/src/swarm:
graph.ts and nodes.ts) and the planning workflow precondition checks
(packages/workflows/src/planning/graph.ts + nodes) in Lean 4, and proves or
refutes the frozen specification claims about them.

Modelling conventions:
- TypeScript interfaces become structures; optional fields become Option.
- The content-generation service together with the JSON.parse step of each
  node is modelled as an oracle argument: none / Except.error stands for a
  parse failure (the try/catch path in the source); some carries the parsed
  shape the source reads out of the JSON.  A generation call that itself
  throws is not caught by any node and would abort the whole workflow run.
- LangGraph channel merging (value: (x, y) => y ?? x for every channel)
  means a node's partial return replaces exactly the returned fields, so
  each node is modelled as a total function SwarmState -> SwarmState that
  copies the untouched fields.
- The JS test `arr.slice(0, n).map((x, i) => f(x, other[i]))` used by the
  assignment node is expressed with List.zip, which truncates to the same
  min length.
-/

namespace DevHive

/-- Story status per types/state.ts. -/
inductive StoryStatus
  | draft | ready | in_progress | review | completed
deriving DecidableEq, Repr

/-- Task status per types/state.ts. -/
inductive TaskStatus
  | pending | in_progress | completed
deriving DecidableEq, Repr

/-- Task within a story (types/state.ts). -/
structure Task where
  id : String
  description : String
  status : TaskStatus
  assignedTo : Option String := none
deriving DecidableEq, Repr

/-- User story (types/state.ts Story). -/
structure Story where
  id : String
  epicId : String
  title : String
  description : String
  acceptanceCriteria : List String
  tasks : List Task
  assignedAgent : Option String := none
  status : StoryStatus
  dependencies : Option (List String) := none
deriving DecidableEq, Repr

/-- Agent status enumeration (types/state.ts AgentStatus.status). -/
inductive AgentState
  | idle | working | blocked | error
deriving DecidableEq, Repr

/-- Agent in the swarm (types/state.ts AgentStatus). -/
structure AgentStatus where
  id : String
  name : String
  assignedStory : Option String := none
  status : AgentState
  progress : Option Nat := none
deriving DecidableEq, Repr

/-- File change action (types/state.ts FileChange.action). -/
inductive FileAction
  | create | modify | delete
deriving DecidableEq, Repr

/-- File change (types/state.ts FileChange). -/
structure FileChange where
  path : String
  action : FileAction
  content : Option String := none
  diff : Option String := none
deriving DecidableEq, Repr

/-- Code change status (types/state.ts CodeChange.status). -/
inductive ChangeStatus
  | pending | reviewed | merged
deriving DecidableEq, Repr

/-- Code change produced by a dev agent (types/state.ts CodeChange). -/
structure CodeChange where
  storyId : String
  agentId : String
  files : List FileChange
  commitMessage : String
  status : ChangeStatus
deriving DecidableEq, Repr

/-- Individual test failure (types/state.ts TestFailure). -/
structure TestFailure where
  test : String
  error : String
  stackTrace : Option String := none
deriving DecidableEq, Repr

/-- Runtime shape of the review results built by qaReviewNode
(nodes.ts builds objects with storyId, passed, failed, coverage, failures
and approved, cast `as any` onto the declared TestResult interface). -/
structure TestResult where
  storyId : String
  passed : Nat
  failed : Nat
  coverage : Option Nat := none
  failures : List TestFailure
  approved : Bool
deriving DecidableEq, Repr

/-- Swarm phase tag (types/state.ts SwarmState.phase). -/
inductive SwarmPhase
  | assign | execute | review | integrate | complete
deriving DecidableEq, Repr

/-- Swarm workflow state (types/state.ts SwarmState). -/
structure SwarmState where
  activeStories : List Story
  completedStories : List Story
  agents : List AgentStatus
  maxAgents : Nat
  storyQueue : List Story
  codeChanges : List CodeChange
  testResults : List TestResult
  phase : SwarmPhase
  blockedStories : List String
deriving DecidableEq, Repr

/-- Parsed JSON shape read by smDraftNode out of the SM response:
parsed.story.tasks and parsed.story.hardDependencies.  A JS `x || y`
fallback only fires when x is undefined (an empty array is truthy). -/
structure DraftParsed where
  tasks : Option (List Task)
  hardDependencies : Option (List String)
deriving DecidableEq, Repr

/-- Parsed JSON shape read by devSwarmNode: parsed.files, parsed.tests,
parsed.commitMessage. -/
structure DevParsed where
  files : List FileChange
  tests : List FileChange
  commitMessage : String
deriving DecidableEq, Repr

/-- Parsed JSON shape read by qaReviewNode: review.approved,
review.testResults.{passed,failed,coverage}, review.issues. -/
structure ReviewParsed where
  approved : Bool
  passed : Nat
  failed : Nat
  coverage : Option Nat
  issues : List String
deriving DecidableEq, Repr

/-- Dependency id list of a story; an absent list behaves as empty in every
read the swarm nodes perform on it. -/
def depIds (st : Story) : List String :=
  st.dependencies.getD []

/-- nodes.ts smDraftNode.  The draftResult argument is the outcome of
JSON-parsing the generated text: none is the catch branch (return only
phase assign), some carries the fields the node reads. -/
def smDraftNode (draftResult : Option DraftParsed) (state : SwarmState) :
    SwarmState :=
  match state.storyQueue with
  | [] => { state with phase := SwarmPhase.complete }
  | nextStory :: rest =>
    match draftResult with
    | none => { state with phase := SwarmPhase.assign }
    | some parsed =>
      let draftedStory : Story :=
        { nextStory with
          tasks := parsed.tasks.getD []
          dependencies := parsed.hardDependencies.or nextStory.dependencies
          status := StoryStatus.ready }
      let isBlocked := (depIds draftedStory).any fun depId =>
        state.completedStories.all fun s => decide (s.id ≠ depId)
      if isBlocked then
        { state with
          storyQueue := rest
          blockedStories := state.blockedStories ++ [draftedStory.id]
          phase := SwarmPhase.assign }
      else
        { state with
          storyQueue := rest
          activeStories := state.activeStories ++ [draftedStory]
          phase := SwarmPhase.assign }

/-- The idle-agent filter computed at the top of nodes.ts assignNode. -/
def idleOf (state : SwarmState) : List AgentStatus :=
  state.agents.filter fun a => decide (a.status = AgentState.idle)

/-- The unassigned-story filter computed at the top of nodes.ts assignNode. -/
def unassignedOf (state : SwarmState) : List Story :=
  state.activeStories.filter fun s => decide (s.assignedAgent = none)

/-- The positional story/agent pairing built by nodes.ts assignNode:
unassignedStories.slice(0, idleAgents.length) paired index-wise with
idleAgents, i.e. the zip of the two lists. -/
def pairsOf (state : SwarmState) : List (Story × AgentStatus) :=
  (unassignedOf state).zip (idleOf state)

/-- nodes.ts assignNode. -/
def assignNode (state : SwarmState) : SwarmState :=
  if (idleOf state).isEmpty || (unassignedOf state).isEmpty then
    { state with phase := SwarmPhase.execute }
  else
    let assignments := (pairsOf state).map fun p => (p.1.id, p.2.id)
    let updatedStories := state.activeStories.map fun story =>
      match assignments.find? (fun a => decide (a.1 = story.id)) with
      | some a =>
        { story with assignedAgent := some a.2
                     status := StoryStatus.in_progress }
      | none => story
    let updatedAgents := state.agents.map fun agent =>
      match assignments.find? (fun a => decide (a.2 = agent.id)) with
      | some a =>
        { agent with status := AgentState.working
                     assignedStory := some a.1
                     progress := some 0 }
      | none => agent
    { state with
      activeStories := updatedStories
      agents := updatedAgents
      phase := SwarmPhase.execute }

/-- The working-agent filter computed at the top of nodes.ts devSwarmNode. -/
def workingOf (state : SwarmState) : List AgentStatus :=
  state.agents.filter fun a => decide (a.status = AgentState.working)

/-- The code changes produced by nodes.ts devSwarmNode: one per working
agent whose assigned story is found in the active set and whose generated
output parses; Promise.all keeps the results in working-agent order and
the nulls of failed generations are filtered out. -/
def newChangesOf (gen : String → Option DevParsed) (state : SwarmState) :
    List CodeChange :=
  (workingOf state).filterMap fun agent =>
    match state.activeStories.find?
        (fun s => decide (some s.id = agent.assignedStory)) with
    | none => none
    | some story =>
      (gen agent.id).map fun parsed =>
        { storyId := story.id
          agentId := agent.id
          files := parsed.files ++ parsed.tests
          commitMessage := parsed.commitMessage
          status := ChangeStatus.pending }

/-- nodes.ts devSwarmNode.  gen maps an agent id to the outcome of parsing
that agent's generated implementation (none = catch branch, no change
produced for that agent). -/
def devSwarmNode (gen : String → Option DevParsed) (state : SwarmState) :
    SwarmState :=
  if (workingOf state).isEmpty then
    { state with phase := SwarmPhase.review }
  else
    let updatedAgents := state.agents.map fun agent =>
      if (newChangesOf gen state).any
          (fun c => decide (c.agentId = agent.id)) then
        { agent with status := AgentState.idle, progress := some 100 }
      else agent
    { state with
      codeChanges := state.codeChanges ++ newChangesOf gen state
      agents := updatedAgents
      phase := SwarmPhase.review }

/-- nodes.ts qaReviewNode.  rev maps a story id to the outcome of parsing
the QA review for that story's pending change. -/
def qaReviewNode (rev : String → Option ReviewParsed) (state : SwarmState) :
    SwarmState :=
  let pendingChanges := state.codeChanges.filter fun c =>
    decide (c.status = ChangeStatus.pending)
  if pendingChanges.isEmpty then
    { state with phase := SwarmPhase.integrate }
  else
    let newResults := pendingChanges.filterMap fun change =>
      match state.activeStories.find?
          (fun s => decide (s.id = change.storyId)) with
      | none => none
      | some _ =>
        (rev change.storyId).map fun parsed =>
          { storyId := change.storyId
            passed := parsed.passed
            failed := parsed.failed
            coverage := parsed.coverage
            failures := parsed.issues.map fun issue =>
              { test := "QA Review", error := issue }
            approved := parsed.approved }
    let updatedChanges := state.codeChanges.map fun change =>
      match newResults.find? (fun r => decide (r.storyId = change.storyId)) with
      | some r =>
        if r.approved then { change with status := ChangeStatus.reviewed }
        else change
      | none => change
    let hasFailures := newResults.any fun r => decide (0 < r.failed)
    { state with
      testResults := newResults
      codeChanges := updatedChanges
      phase := if hasFailures then SwarmPhase.execute
               else SwarmPhase.integrate }

/-- nodes.ts integrateNode. -/
def integrateNode (state : SwarmState) : SwarmState :=
  let reviewedChanges := state.codeChanges.filter fun c =>
    decide (c.status = ChangeStatus.reviewed)
  if reviewedChanges.isEmpty then
    { state with phase := SwarmPhase.complete }
  else
    let completedStoryIds := reviewedChanges.map fun c => c.storyId
    let newlyCompleted :=
      (state.activeStories.filter fun s =>
        decide (s.id ∈ completedStoryIds)).map fun s =>
          { s with status := StoryStatus.completed }
    let remainingActive := state.activeStories.filter fun s =>
      decide (s.id ∉ completedStoryIds)
    let mergedChanges := state.codeChanges.map fun change =>
      if change.status = ChangeStatus.reviewed then
        { change with status := ChangeStatus.merged }
      else change
    let scan := state.blockedStories.foldl
      (fun (acc : List String × List String) blockedId =>
        match state.storyQueue.find? (fun s => decide (s.id = blockedId)) with
        | none => acc
        | some blockedStory =>
          let allDepsCompleted :=
            match blockedStory.dependencies with
            | none => false
            | some deps => deps.all fun depId =>
                (state.completedStories ++ newlyCompleted).any fun s =>
                  decide (s.id = depId)
          if allDepsCompleted then (acc.1 ++ [blockedId], acc.2)
          else (acc.1, acc.2 ++ [blockedId]))
      ([], [])
    let unblocked := scan.1
    let stillBlocked := scan.2
    let updatedQueue :=
      (state.storyQueue.filter fun s =>
        decide (s.id ∉ state.blockedStories)) ++
      (state.storyQueue.filter fun s => decide (s.id ∈ unblocked))
    let hasMore :=
      decide (0 < updatedQueue.length) || decide (0 < remainingActive.length)
    { state with
      activeStories := remainingActive
      completedStories := state.completedStories ++ newlyCompleted
      codeChanges := mergedChanges
      storyQueue := updatedQueue
      blockedStories := stillBlocked
      phase := if hasMore then SwarmPhase.assign else SwarmPhase.complete }

/-- graph.ts hasMoreWork conditional edge. -/
def hasMoreWork (state : SwarmState) : Bool :=
  decide (0 < state.storyQueue.length) ||
  decide (0 < state.activeStories.length)

/-- graph.ts needsMoreDev conditional edge. -/
def needsMoreDev (state : SwarmState) : Bool :=
  state.testResults.any fun r => decide (0 < r.failed)

/-- Names of the swarm graph nodes, plus the END sentinel (done). -/
inductive NodeName
  | sm_draft | assign | dev_swarm | qa_review | integrate | done
deriving DecidableEq, Repr

/-- Generation-and-parse outcomes for one scheduler step: one draft call,
one dev call per agent id, one review call per story id. -/
structure GenOracle where
  draft : Option DraftParsed
  dev : String → Option DevParsed
  review : String → Option ReviewParsed

/-- One scheduler step of the compiled swarm graph of graph.ts: run the
current node, then follow its (conditional) outgoing edge on the merged
state.  Edges per createSwarmGraph: sm_draft -> assign -> dev_swarm ->
qa_review -> (needsMoreDev ? dev_swarm : integrate), and integrate ->
(hasMoreWork ? assign : END).  END is absorbing. -/
def step (o : GenOracle) : NodeName × SwarmState → NodeName × SwarmState
  | (NodeName.sm_draft, s) => (NodeName.assign, smDraftNode o.draft s)
  | (NodeName.assign, s) => (NodeName.dev_swarm, assignNode s)
  | (NodeName.dev_swarm, s) => (NodeName.qa_review, devSwarmNode o.dev s)
  | (NodeName.qa_review, s) =>
    let s2 := qaReviewNode o.review s
    (if needsMoreDev s2 then NodeName.dev_swarm else NodeName.integrate, s2)
  | (NodeName.integrate, s) =>
    let s2 := integrateNode s
    (if hasMoreWork s2 then NodeName.assign else NodeName.done, s2)
  | (NodeName.done, s) => (NodeName.done, s)

/-- Initial swarm states as built by the CLI swarm start command
(packages/cli/src/commands/swarm/start.ts): empty active, completed,
changes, results and blocked collections, phase assign, and a roster of
idle agents with no assignment.  The entry point of the graph is sm_draft. -/
def InitialSwarm (s : SwarmState) : Prop :=
  s.activeStories = [] ∧ s.completedStories = [] ∧ s.codeChanges = [] ∧
  s.testResults = [] ∧ s.blockedStories = [] ∧ s.phase = SwarmPhase.assign ∧
  ∀ a ∈ s.agents, a.status = AgentState.idle ∧ a.assignedStory = none

/-- Configurations reachable by a swarm run: the entry configuration on an
initial state, closed under scheduler steps with arbitrary generation
outcomes. -/
inductive Reachable : NodeName × SwarmState → Prop
  | init (s : SwarmState) (h : InitialSwarm s) :
      Reachable (NodeName.sm_draft, s)
  | next (o : GenOracle) (c : NodeName × SwarmState) (h : Reachable c) :
      Reachable (step o c)

/-- Artifact type tag (types/state.ts Artifact.type). -/
inductive ArtifactType
  | project_brief | prd | architecture | ux_spec | story | epic
deriving DecidableEq, Repr

/-- Document artifact (types/state.ts Artifact); the Date timestamp is
modelled as a Nat. -/
structure Artifact where
  type : ArtifactType
  content : String
  version : Nat
  createdBy : String
  lastModified : Nat
deriving DecidableEq, Repr

/-- Epic status (types/state.ts Epic.status). -/
inductive EpicStatus
  | planned | in_progress | completed
deriving DecidableEq, Repr

/-- Epic (types/state.ts Epic). -/
structure Epic where
  id : String
  title : String
  description : String
  stories : List Story
  status : EpicStatus
deriving DecidableEq, Repr

/-- Planning phase tag (types/state.ts PlanningState.currentPhase). -/
inductive PlanPhase
  | brief | prd | ux | architecture | validation | sharding | complete
deriving DecidableEq, Repr

/-- Project type (types/state.ts PlanningState.projectType). -/
inductive ProjectType
  | greenfield | brownfield
deriving DecidableEq, Repr

/-- Planning workflow state (types/state.ts PlanningState). -/
structure PlanningState where
  projectBrief : Option Artifact := none
  prd : Option Artifact := none
  uxSpec : Option Artifact := none
  architecture : Option Artifact := none
  epics : List Epic := []
  stories : List Story := []
  currentPhase : PlanPhase
  validationIssues : List String := []
  needsUserInput : Bool := false
  userMessage : Option String := none
  projectType : ProjectType := ProjectType.greenfield
  includeUX : Bool := false
deriving DecidableEq, Repr

/-- Parsed JSON shape read by poShardNode out of the sharding response:
parsed.epics with their embedded story objects. -/
structure ParsedEpic where
  id : String
  title : String
  description : String
  stories : List Story
deriving DecidableEq, Repr

/-- planning pmNode.  A missing project brief is a thrown Error, modelled
as Except.error carrying the thrown message; no state update is produced
in that case.  genText is the text returned by the generation call and
now the creation timestamp. -/
def pmNode (genText : String) (now : Nat) (state : PlanningState) :
    Except String PlanningState :=
  match state.projectBrief with
  | none => Except.error "Project brief is required for PRD creation"
  | some _ =>
    let artifact : Artifact :=
      { type := ArtifactType.prd
        content := genText
        version := 1
        createdBy := "pm"
        lastModified := now }
    Except.ok
      { state with
        prd := some artifact
        currentPhase :=
          if state.includeUX then PlanPhase.ux else PlanPhase.architecture }

/-- planning architectNode.  A missing PRD is a thrown Error (the optional
uxSpec only feeds the prompt, not the state delta). -/
def architectNode (genText : String) (now : Nat) (state : PlanningState) :
    Except String PlanningState :=
  match state.prd with
  | none => Except.error "PRD is required for architecture creation"
  | some _ =>
    let artifact : Artifact :=
      { type := ArtifactType.architecture
        content := genText
        version := 1
        createdBy := "architect"
        lastModified := now }
    Except.ok
      { state with
        architecture := some artifact
        currentPhase := PlanPhase.validation }

/-- planning poShardNode.  A missing PRD or architecture is a thrown
Error.  shardResult is the outcome of JSON-parsing the sharding response:
Except.error msg is the catch branch, which records a validation issue and
sets needsUserInput instead of failing the pipeline. -/
def poShardNode (shardResult : Except String (List ParsedEpic))
    (state : PlanningState) : Except String PlanningState :=
  if state.prd = none ∨ state.architecture = none then
    Except.error "PRD and Architecture are required for sharding"
  else
    match shardResult with
    | Except.ok parsedEpics =>
      Except.ok
        { state with
          epics := parsedEpics.map fun e =>
            { id := e.id
              title := e.title
              description := e.description
              stories := e.stories
              status := EpicStatus.planned }
          stories := parsedEpics.flatMap fun e =>
            e.stories.map fun st =>
              { st with epicId := e.id, status := StoryStatus.draft }
          currentPhase := PlanPhase.complete }
    | Except.error msg =>
      Except.ok
        { state with
          validationIssues := ["Failed to parse epics/stories: " ++ msg]
          needsUserInput := true }

/-! ### Concrete fixtures

The end-to-end scenario of claim C1: backlog [A (no deps), B (depends on
A)], two idle dev agents, and a generation stub that always succeeds with
valid output (a task list, no extra hard dependencies, parseable code and
an approving review with zero failed tests). -/

/-- Story A of the C1 scenario: no dependencies. -/
def storyA : Story :=
  { id := "A", epicId := "E1", title := "Story A", description := "a"
    acceptanceCriteria := ["ac-a"], tasks := []
    status := StoryStatus.draft, dependencies := some [] }

/-- Story B of the C1 scenario: depends on A. -/
def storyB : Story :=
  { id := "B", epicId := "E1", title := "Story B", description := "b"
    acceptanceCriteria := ["ac-b"], tasks := []
    status := StoryStatus.draft, dependencies := some ["A"] }

/-- Idle dev agent as created by the swarm start command. -/
def mkAgent (i : Nat) : AgentStatus :=
  { id := "dev-" ++ toString i
    name := "Dev Agent " ++ toString i
    status := AgentState.idle }

/-- Initial state of the C1 scenario: backlog [A, B], two idle agents. -/
def scenarioInit : SwarmState :=
  { activeStories := []
    completedStories := []
    agents := [mkAgent 1, mkAgent 2]
    maxAgents := 2
    storyQueue := [storyA, storyB]
    codeChanges := []
    testResults := []
    phase := SwarmPhase.assign
    blockedStories := [] }

/-- Always-succeeding generation stub: valid draft (keeps the existing
dependencies), valid code for every agent, approving review with zero
failures for every story. -/
def stubOracle : GenOracle :=
  { draft := some
      { tasks := some [{ id := "TASK-001", description := "t"
                         status := TaskStatus.pending }]
        hardDependencies := none }
    dev := fun _ => some
      { files := [{ path := "f.ts", action := FileAction.create
                    content := some "c" }]
        tests := []
        commitMessage := "m" }
    review := fun _ => some
      { approved := true, passed := 1, failed := 0, coverage := none
        issues := [] } }

/-- The C1 scenario run: n scheduler steps from the entry configuration. -/
def scenarioRun (n : Nat) : NodeName × SwarmState :=
  Nat.iterate (step stubOracle) n (NodeName.sm_draft, scenarioInit)

/-- What actually happens along the C1 scenario run, at every step: the run
never reaches the END sentinel, story B is never placed in the blocked set,
and B never reaches the completed set. -/
def GoodC1 (c : NodeName × SwarmState) : Prop :=
  c.1 ≠ NodeName.done ∧ c.2.blockedStories = [] ∧
  ∀ st ∈ c.2.completedStories, st.id ≠ "B"

instance : DecidablePred GoodC1 := fun c => by
  unfold GoodC1; infer_instance

/-- Dependency-closure invariant: every active or completed story has all
its dependency ids among the ids of the completed set. -/
def DepClosed (s : SwarmState) : Prop :=
  ∀ st ∈ s.activeStories ++ s.completedStories, ∀ d ∈ depIds st,
    ∃ c ∈ s.completedStories, c.id = d

/-- Worker invariant that the code does maintain: a working agent always
has its assignedStory field set. -/
def WorkingAssigned (s : SwarmState) : Prop :=
  ∀ a ∈ s.agents, a.status = AgentState.working → a.assignedStory ≠ none

/-- Reviewed code change fixture used by the integrate-phase inputs. -/
def mkChange (sid aid : String) (cs : ChangeStatus) : CodeChange :=
  { storyId := sid, agentId := aid, files := [], commitMessage := "m"
    status := cs }

/-- Active story fixture assigned to an agent. -/
def mkActiveStory (sid aid : String) : Story :=
  { id := sid, epicId := "E1", title := sid, description := sid
    acceptanceCriteria := [], tasks := [], assignedAgent := some aid
    status := StoryStatus.in_progress, dependencies := some [] }

/-- Failing input for C3: the integrate phase with blocked id B (B's
WorkItem had dependencies [A] and was removed from the backlog queue when
smDraftNode blocked it, exactly as the draft phase leaves things), A
already completed, and one reviewed change for the active story D. -/
def c3State : SwarmState :=
  { activeStories := [mkActiveStory "D" "dev-1"]
    completedStories := [{ storyA with status := StoryStatus.completed }]
    agents := [mkAgent 1, mkAgent 2]
    maxAgents := 2
    storyQueue := []
    codeChanges := [mkChange "D" "dev-1" ChangeStatus.reviewed]
    testResults := []
    phase := SwarmPhase.integrate
    blockedStories := ["B"] }

/-- Failing input for C4: the integrate phase with blocked id X whose
WorkItem referenced a dependency id (NOPE) never present in the system,
X's story no longer in the queue (the draft phase removed it), and one
reviewed change for the active story F. -/
def c4State : SwarmState :=
  { activeStories := [mkActiveStory "F" "dev-1"]
    completedStories := []
    agents := [mkAgent 1]
    maxAgents := 1
    storyQueue := []
    codeChanges := [mkChange "F" "dev-1" ChangeStatus.reviewed]
    testResults := []
    phase := SwarmPhase.integrate
    blockedStories := ["X"] }

/-- Idle agent with a chosen id. -/
def idleAgent (aid : String) : AgentStatus :=
  { id := aid, name := aid, status := AgentState.idle }

/-- Unassigned ready story with a chosen id. -/
def readyStory (sid : String) : Story :=
  { id := sid, epicId := "E1", title := sid, description := sid
    acceptanceCriteria := [], tasks := [], assignedAgent := none
    status := StoryStatus.ready, dependencies := some [] }

/-- Counterexample input for C5: the idle roster is [dev-2, dev-10], which
is not sorted by worker id (the string order puts dev-10 first), and there
is one unassigned active story S. -/
def c5State : SwarmState :=
  { activeStories := [readyStory "S"]
    completedStories := []
    agents := [idleAgent "dev-2", idleAgent "dev-10"]
    maxAgents := 2
    storyQueue := []
    codeChanges := []
    testResults := []
    phase := SwarmPhase.assign
    blockedStories := [] }

/-- The same state as c5State with the roster order of the two idle
workers swapped. -/
def c5StateSwapped : SwarmState :=
  { c5State with agents := [idleAgent "dev-10", idleAgent "dev-2"] }

/-- Witness input for the amended C5: roster [dev-1, dev-2] idle, one
unassigned story S. -/
def c5WState : SwarmState :=
  { activeStories := [readyStory "S"]
    completedStories := []
    agents := [mkAgent 1, mkAgent 2]
    maxAgents := 2
    storyQueue := []
    codeChanges := []
    testResults := []
    phase := SwarmPhase.assign
    blockedStories := [] }

/-- Working agent fixture for the execute-phase inputs. -/
def workingAgent (aid sid : String) : AgentStatus :=
  { id := aid, name := aid, assignedStory := some sid
    status := AgentState.working, progress := some 0 }

/-- Execute-phase input for C7: two working agents; generation will fail
for dev-1 and succeed for dev-2. -/
def c7State : SwarmState :=
  { activeStories := [mkActiveStory "S1" "dev-1", mkActiveStory "S2" "dev-2"]
    completedStories := []
    agents := [workingAgent "dev-1" "S1", workingAgent "dev-2" "S2"]
    maxAgents := 2
    storyQueue := []
    codeChanges := []
    testResults := []
    phase := SwarmPhase.execute
    blockedStories := [] }

/-- Dev generation outcome for C7: parse failure for dev-1, valid output
for every other agent. -/
def c7Gen : String → Option DevParsed := fun aid =>
  if aid = "dev-1" then none
  else some { files := [], tests := [], commitMessage := "ok" }

/-- The empty swarm state (used to instantiate termination at a concrete
input). -/
def emptySwarm : SwarmState :=
  { activeStories := []
    completedStories := []
    agents := []
    maxAgents := 0
    storyQueue := []
    codeChanges := []
    testResults := []
    phase := SwarmPhase.assign
    blockedStories := [] }

/-- Fresh planning state as built by the planning start command: no
artifacts yet. -/
def emptyPlanning : PlanningState :=
  { currentPhase := PlanPhase.brief }

/-! ### Theorems -/

theorem scenarioRun_succ (n : Nat) :
    scenarioRun (n + 1) = step stubOracle (scenarioRun n) :=
  Function.iterate_succ_apply' (step stubOracle) n
    (NodeName.sm_draft, scenarioInit)

/-- From step 6 on, the C1 scenario run cycles with period 4 through
assign, dev_swarm, qa_review, integrate without ever drafting story B. -/
theorem scenario_period (k : Nat) :
    scenarioRun (k + 10) = scenarioRun (k + 6) := by
  have h : scenarioRun 10 = scenarioRun 6 := by decide
  show (step stubOracle)^[k + 10] (NodeName.sm_draft, scenarioInit) =
    (step stubOracle)^[k + 6] (NodeName.sm_draft, scenarioInit)
  rw [Function.iterate_add_apply, Function.iterate_add_apply]
  exact congrArg (step stubOracle)^[k] h

/-- Every configuration of the C1 scenario run is reachable. -/
theorem reachable_scenarioRun (n : Nat) : Reachable (scenarioRun n) := by
  induction n with
  | zero =>
    exact Reachable.init scenarioInit ⟨rfl, rfl, rfl, rfl, rfl, rfl, by decide⟩
  | succ n ih =>
    rw [scenarioRun_succ]
    exact Reachable.next stubOracle _ ih

/-- Claim C1 (code_bug): in the scenario backlog [A (no deps), B (deps
[A])] with 2 idle workers and an always-succeeding generation stub, the
claimed behaviour does not happen: at every step of the run the workflow
has not terminated, B is never placed in the blocked set, and B is never
completed.  The compiled graph has no edge returning to sm_draft, so only
the first backlog item is ever drafted and the run loops forever through
assign, dev_swarm, qa_review and integrate with B stuck in the queue. -/
theorem c1_scenario_never_completes_B : ∀ n, GoodC1 (scenarioRun n) := by
  intro n
  induction n using Nat.strong_induction_on with
  | _ n ih =>
    rcases lt_or_ge n 10 with h | h
    · exact (by decide : ∀ m, m < 10 → GoodC1 (scenarioRun m)) n h
    · obtain ⟨k, rfl⟩ : ∃ k, n = k + 10 := ⟨n - 10, by omega⟩
      rw [scenario_period]
      exact ih (k + 6) (by omega)

/-- Claim C3 (code_bug): at the failing input (blocked id B whose
dependency A is in the updated completed set, B's story no longer in the
queue because smDraftNode removed it there), the integrate phase does not
move B to the front of the backlog: it silently drops B from the blocked
set and the backlog stays empty, while D is completed as expected. -/
theorem c3_integrate_drops_unblockable :
    (integrateNode c3State).blockedStories = [] ∧
    (integrateNode c3State).storyQueue = [] ∧
    (integrateNode c3State).completedStories.map (fun s => s.id) =
      ["A", "D"] := by decide

/-- Claim C4 (code_bug): at the failing input (blocked id X whose
dependency NOPE is never present in the system, plus one reviewed change),
the integrate phase removes X from the blocked set without unblocking it,
and X appears nowhere in the resulting state; SwarmState has no issue list
at all, so no validation issue can be recorded. -/
theorem c4_blocked_id_silently_dropped :
    (integrateNode c4State).blockedStories = [] ∧
    (integrateNode c4State).storyQueue = [] ∧
    ((integrateNode c4State).activeStories.map (fun s => s.id)).contains "X"
      = false ∧
    ((integrateNode c4State).completedStories.map (fun s => s.id)).contains
      "X" = false := by decide

/-- Counterexample to claim C5: the two states c5State and c5StateSwapped
have the same set of idle workers {dev-2, dev-10} and the same single
unassigned story S, so a pairing determined by the idle workers sorted by
worker id would assign S to the same worker in both; the code instead
pairs by roster order and assigns S to dev-2 in one state and to dev-10 in
the other, so in at least one of them the claimed id-sorted pairing is
violated. -/
theorem c5_counterexample :
    (assignNode c5State).activeStories.map (fun st => st.assignedAgent) =
      [some "dev-2"] ∧
    (assignNode c5StateSwapped).activeStories.map
      (fun st => st.assignedAgent) = [some "dev-10"] ∧
    c5State.agents ≠ c5StateSwapped.agents ∧
    (∀ a ∈ c5State.agents, a ∈ c5StateSwapped.agents) ∧
    (∀ a ∈ c5StateSwapped.agents, a ∈ c5State.agents) ∧
    c5State.activeStories = c5StateSwapped.activeStories := by decide

/-- Counterexample to claim C7: when generation fails for working agent
dev-1 and succeeds for dev-2, dev-1 ends the execute phase still working
and still assigned to S1 (not idle and unassigned as claimed), and its
story S1 keeps its assignment; only dev-2's ChangeSet is produced. -/
theorem c7_counterexample :
    (devSwarmNode c7Gen c7State).agents.find?
        (fun a => decide (a.id = "dev-1")) =
      some (workingAgent "dev-1" "S1") ∧
    (workingAgent "dev-1" "S1").status = AgentState.working ∧
    (workingAgent "dev-1" "S1").assignedStory = some "S1" ∧
    (devSwarmNode c7Gen c7State).codeChanges.map (fun c => c.agentId) =
      ["dev-2"] ∧
    ((devSwarmNode c7Gen c7State).activeStories.map
      (fun st => st.assignedAgent)) = [some "dev-1", some "dev-2"] := by
  decide

/-- Counterexample to claim C8: on a draft parse failure the backlog does
not shrink by one and no issue is recorded; the state is returned with
only the phase changed. -/
theorem c8_counterexample :
    (smDraftNode none scenarioInit).storyQueue = scenarioInit.storyQueue ∧
    scenarioInit.storyQueue.length = 2 ∧
    smDraftNode none scenarioInit =
      { scenarioInit with phase := SwarmPhase.assign } := by decide

/-- Claim C8 as amended: when the draft generation output is unparseable
and the backlog is non-empty, the state is unchanged except that the phase
is set to assign — the head item stays at the head of the backlog and
nothing is recorded (SwarmState has no issue list). -/
theorem c8_amended_parse_failure_keeps_state (s : SwarmState)
    (h : s.storyQueue ≠ []) :
    smDraftNode none s = { s with phase := SwarmPhase.assign } := by
  unfold smDraftNode
  cases hq : s.storyQueue with
  | nil => exact absurd hq h
  | cons a l => rfl

theorem c8_amended_witness :
    smDraftNode none scenarioInit =
      { scenarioInit with phase := SwarmPhase.assign } :=
  c8_amended_parse_failure_keeps_state scenarioInit (by decide)

/-- Claim C9 (confirmed): the workflow transitions to END only from the
integrate node (or by staying at END), and after the integrate phase it
terminates exactly when both the updated backlog queue and the updated
active set are empty, transitioning to assign otherwise. -/
theorem c9_terminal_iff_no_work (o : GenOracle) (nd : NodeName)
    (s : SwarmState) :
    ((step o (nd, s)).1 = NodeName.done →
      nd = NodeName.integrate ∨ nd = NodeName.done) ∧
    (nd = NodeName.integrate →
      (step o (nd, s)).2 = integrateNode s ∧
      ((step o (nd, s)).1 = NodeName.done ↔
        (integrateNode s).storyQueue = [] ∧
        (integrateNode s).activeStories = []) ∧
      ((integrateNode s).storyQueue ≠ [] ∨
        (integrateNode s).activeStories ≠ [] →
        (step o (nd, s)).1 = NodeName.assign)) := by
  cases nd with
  | sm_draft =>
    exact ⟨fun h => by simp [step] at h, fun h => by cases h⟩
  | assign =>
    exact ⟨fun h => by simp [step] at h, fun h => by cases h⟩
  | dev_swarm =>
    exact ⟨fun h => by simp [step] at h, fun h => by cases h⟩
  | qa_review =>
    refine ⟨fun h => ?_, fun h => by cases h⟩
    simp only [step] at h
    split at h <;> cases h
  | integrate =>
    refine ⟨fun _ => Or.inl rfl, fun _ => ⟨?_, ?_, ?_⟩⟩
    · rfl
    · simp only [step, hasMoreWork]
      constructor
      · intro h
        split at h
        · cases h
        · rename_i hcond
          simp only [Bool.or_eq_true, decide_eq_true_eq, not_or] at hcond
          push_neg at hcond
          exact ⟨List.length_eq_zero.mp (by omega),
                 List.length_eq_zero.mp (by omega)⟩
      · intro ⟨h1, h2⟩
        have : ¬ (decide (0 < (integrateNode s).storyQueue.length) ||
            decide (0 < (integrateNode s).activeStories.length)) = true := by
          simp [h1, h2]
        rw [if_neg this]
    · intro h
      simp only [step, hasMoreWork]
      have : (decide (0 < (integrateNode s).storyQueue.length) ||
          decide (0 < (integrateNode s).activeStories.length)) = true := by
        rcases h with h | h
        · simp [List.length_pos.mpr h]
        · simp [List.length_pos.mpr h]
      rw [if_pos this]
  | done =>
    exact ⟨fun _ => Or.inr rfl, fun h => by cases h⟩

theorem c9_witness :
    (step stubOracle (NodeName.integrate, emptySwarm)).1 = NodeName.done :=
  ((c9_terminal_iff_no_work stubOracle NodeName.integrate emptySwarm).2
    rfl).2.1.mpr (by decide)

/-- Claim C10 (confirmed): each planning phase with a required upstream
artifact raises, when that artifact is absent, an error naming the missing
precondition, and returns no state update (the Except.error carries only
the message): pmNode without a project brief, architectNode without a PRD,
poShardNode without a PRD or an architecture. -/
theorem c10_missing_artifact_is_fatal (genText : String) (now : Nat)
    (shardResult : Except String (List ParsedEpic)) (s : PlanningState) :
    (s.projectBrief = none →
      pmNode genText now s =
        Except.error "Project brief is required for PRD creation") ∧
    (s.prd = none →
      architectNode genText now s =
        Except.error "PRD is required for architecture creation") ∧
    (s.prd = none ∨ s.architecture = none →
      poShardNode shardResult s =
        Except.error "PRD and Architecture are required for sharding") := by
  refine ⟨fun h => ?_, fun h => ?_, fun h => ?_⟩
  · unfold pmNode; rw [h]
  · unfold architectNode; rw [h]
  · unfold poShardNode; rw [if_pos h]

theorem c10_witness :
    pmNode "txt" 0 emptyPlanning =
      Except.error "Project brief is required for PRD creation" ∧
    architectNode "txt" 0 emptyPlanning =
      Except.error "PRD is required for architecture creation" ∧
    poShardNode (Except.ok []) emptyPlanning =
      Except.error "PRD and Architecture are required for sharding" :=
  ⟨(c10_missing_artifact_is_fatal "txt" 0 (Except.ok []) emptyPlanning).1 rfl,
   (c10_missing_artifact_is_fatal "txt" 0 (Except.ok []) emptyPlanning).2.1
     rfl,
   (c10_missing_artifact_is_fatal "txt" 0 (Except.ok []) emptyPlanning).2.2
     (Or.inl rfl)⟩

theorem smDraftNode_completed (res : Option DraftParsed) (s : SwarmState) :
    (smDraftNode res s).completedStories = s.completedStories := by
  unfold smDraftNode
  cases hq : s.storyQueue with
  | nil => rfl
  | cons nxt rest =>
    cases res with
    | none => rfl
    | some parsed => dsimp only; split <;> rfl

theorem smDraftNode_agents (res : Option DraftParsed) (s : SwarmState) :
    (smDraftNode res s).agents = s.agents := by
  unfold smDraftNode
  cases hq : s.storyQueue with
  | nil => rfl
  | cons nxt rest =>
    cases res with
    | none => rfl
    | some parsed => dsimp only; split <;> rfl

/-- The draft node either leaves the active set unchanged or appends one
story all of whose dependency ids already have a completed story. -/
theorem smDraftNode_active (res : Option DraftParsed) (s : SwarmState) :
    (smDraftNode res s).activeStories = s.activeStories ∨
    ∃ st, (smDraftNode res s).activeStories = s.activeStories ++ [st] ∧
      ∀ d ∈ depIds st, ∃ c ∈ s.completedStories, c.id = d := by
  unfold smDraftNode
  cases hq : s.storyQueue with
  | nil => exact Or.inl rfl
  | cons nxt rest =>
    cases res with
    | none => exact Or.inl rfl
    | some parsed =>
      dsimp only
      split
      · exact Or.inl rfl
      · rename_i hb
        refine Or.inr ⟨_, rfl, ?_⟩
        intro d hd
        rw [Bool.not_eq_true, List.any_eq_false] at hb
        have h2 := hb d hd
        simp only [List.all_eq_true, decide_eq_true_eq, not_forall] at h2
        obtain ⟨c, hc, hcd⟩ := h2
        exact ⟨c, hc, not_ne_iff.mp hcd⟩

theorem assignNode_completed (s : SwarmState) :
    (assignNode s).completedStories = s.completedStories := by
  unfold assignNode; split <;> rfl

/-- The assign node either leaves everything unchanged (no idle worker or
no unassigned story) or maps the roster and the active set through the
positional assignment built from pairsOf. -/
theorem assignNode_active_eq (s : SwarmState) :
    (assignNode s).activeStories = s.activeStories ∨
    (assignNode s).activeStories = s.activeStories.map (fun story =>
      match ((pairsOf s).map fun p => (p.1.id, p.2.id)).find?
          (fun a => decide (a.1 = story.id)) with
      | some a =>
        { story with assignedAgent := some a.2
                     status := StoryStatus.in_progress }
      | none => story) := by
  unfold assignNode; split
  · exact Or.inl rfl
  · exact Or.inr rfl

theorem assignNode_agents_eq (s : SwarmState) :
    (assignNode s).agents = s.agents ∨
    (assignNode s).agents = s.agents.map (fun agent =>
      match ((pairsOf s).map fun p => (p.1.id, p.2.id)).find?
          (fun a => decide (a.2 = agent.id)) with
      | some a =>
        { agent with status := AgentState.working
                     assignedStory := some a.1
                     progress := some 0 }
      | none => agent) := by
  unfold assignNode; split
  · exact Or.inl rfl
  · exact Or.inr rfl

theorem devSwarmNode_active (gen : String → Option DevParsed)
    (s : SwarmState) : (devSwarmNode gen s).activeStories = s.activeStories
    := by
  unfold devSwarmNode; dsimp only; split <;> rfl

theorem devSwarmNode_completed (gen : String → Option DevParsed)
    (s : SwarmState) :
    (devSwarmNode gen s).completedStories = s.completedStories := by
  unfold devSwarmNode; dsimp only; split <;> rfl

theorem devSwarmNode_agents_eq (gen : String → Option DevParsed)
    (s : SwarmState) :
    (devSwarmNode gen s).agents = s.agents ∨
    ∃ ch : List CodeChange,
      (devSwarmNode gen s).agents = s.agents.map (fun agent =>
        if ch.any (fun c => decide (c.agentId = agent.id)) then
          { agent with status := AgentState.idle, progress := some 100 }
        else agent) := by
  unfold devSwarmNode; dsimp only; split
  · exact Or.inl rfl
  · exact Or.inr ⟨_, rfl⟩

theorem qaReviewNode_active (rev : String → Option ReviewParsed)
    (s : SwarmState) :
    (qaReviewNode rev s).activeStories = s.activeStories := by
  unfold qaReviewNode; dsimp only; split <;> rfl

theorem qaReviewNode_completed (rev : String → Option ReviewParsed)
    (s : SwarmState) :
    (qaReviewNode rev s).completedStories = s.completedStories := by
  unfold qaReviewNode; dsimp only; split <;> rfl

theorem qaReviewNode_agents (rev : String → Option ReviewParsed)
    (s : SwarmState) : (qaReviewNode rev s).agents = s.agents := by
  unfold qaReviewNode; dsimp only; split <;> rfl

theorem integrateNode_agents (s : SwarmState) :
    (integrateNode s).agents = s.agents := by
  unfold integrateNode; dsimp only; split <;> rfl

/-- The completed set never shrinks across the integrate node. -/
theorem integrateNode_completed_mono (s : SwarmState) :
    ∀ c ∈ s.completedStories, c ∈ (integrateNode s).completedStories := by
  unfold integrateNode; dsimp only; split
  · exact fun c hc => hc
  · exact fun c hc => List.mem_append_left _ hc

/-- Every active or completed story after the integrate node comes from an
active or completed story before it, with the same dependency ids. -/
theorem integrateNode_source (s : SwarmState) :
    ∀ st ∈ (integrateNode s).activeStories ++
        (integrateNode s).completedStories,
      ∃ st0 ∈ s.activeStories ++ s.completedStories,
        depIds st = depIds st0 := by
  unfold integrateNode; dsimp only; split
  · exact fun st hst => ⟨st, hst, rfl⟩
  · intro st hst
    rw [List.mem_append] at hst
    rcases hst with h | h
    · exact ⟨st, List.mem_append_left _ (List.mem_of_mem_filter h), rfl⟩
    · rw [List.mem_append] at h
      rcases h with h | h
      · exact ⟨st, List.mem_append_right _ h, rfl⟩
      · rw [List.mem_map] at h
        obtain ⟨st0, h0, hf⟩ := h
        exact ⟨st0, List.mem_append_left _ (List.mem_of_mem_filter h0),
          by subst hf; rfl⟩

theorem depClosed_smDraftNode (res : Option DraftParsed) (s : SwarmState)
    (h : DepClosed s) : DepClosed (smDraftNode res s) := by
  intro st hst d hd
  rw [smDraftNode_completed]
  rw [List.mem_append, smDraftNode_completed] at hst
  rcases hst with hA | hC
  · rcases smDraftNode_active res s with hEq | ⟨st2, hEq, hdep⟩
    · rw [hEq] at hA
      exact h st (List.mem_append_left _ hA) d hd
    · rw [hEq, List.mem_append] at hA
      rcases hA with hA | hA
      · exact h st (List.mem_append_left _ hA) d hd
      · have hst2 : st = st2 := by simpa using hA
        subst hst2
        exact hdep d hd
  · exact h st (List.mem_append_right _ hC) d hd

theorem depClosed_assignNode (s : SwarmState) (h : DepClosed s) :
    DepClosed (assignNode s) := by
  intro st hst d hd
  rw [assignNode_completed]
  rw [List.mem_append, assignNode_completed] at hst
  rcases hst with hA | hC
  · rcases assignNode_active_eq s with hEq | hEq
    · rw [hEq] at hA
      exact h st (List.mem_append_left _ hA) d hd
    · rw [hEq, List.mem_map] at hA
      obtain ⟨st0, h0, hf⟩ := hA
      have hdep : depIds st = depIds st0 := by
        rw [← hf]; split <;> rfl
      rw [hdep] at hd
      exact h st0 (List.mem_append_left _ h0) d hd
  · exact h st (List.mem_append_right _ hC) d hd

theorem depClosed_devSwarmNode (gen : String → Option DevParsed)
    (s : SwarmState) (h : DepClosed s) : DepClosed (devSwarmNode gen s) := by
  intro st hst d hd
  rw [devSwarmNode_completed]
  rw [List.mem_append, devSwarmNode_active, devSwarmNode_completed] at hst
  exact h st (List.mem_append.mpr hst) d hd

theorem depClosed_qaReviewNode (rev : String → Option ReviewParsed)
    (s : SwarmState) (h : DepClosed s) : DepClosed (qaReviewNode rev s) := by
  intro st hst d hd
  rw [qaReviewNode_completed]
  rw [List.mem_append, qaReviewNode_active, qaReviewNode_completed] at hst
  exact h st (List.mem_append.mpr hst) d hd

theorem depClosed_integrateNode (s : SwarmState) (h : DepClosed s) :
    DepClosed (integrateNode s) := by
  intro st hst d hd
  obtain ⟨st0, h0, hdep⟩ := integrateNode_source s st hst
  rw [hdep] at hd
  obtain ⟨c, hc, hcid⟩ := h st0 h0 d hd
  exact ⟨c, integrateNode_completed_mono s c hc, hcid⟩

theorem depClosed_step (o : GenOracle) (c : NodeName × SwarmState)
    (h : DepClosed c.2) : DepClosed (step o c).2 := by
  obtain ⟨nd, s⟩ := c
  cases nd with
  | sm_draft => exact depClosed_smDraftNode o.draft s h
  | assign => exact depClosed_assignNode s h
  | dev_swarm => exact depClosed_devSwarmNode o.dev s h
  | qa_review => exact depClosed_qaReviewNode o.review s h
  | integrate => exact depClosed_integrateNode s h
  | done => exact h

theorem reachable_depClosed (c : NodeName × SwarmState) (h : Reachable c) :
    DepClosed c.2 := by
  induction h with
  | init s hI =>
    intro st hst d hd
    rw [hI.1, hI.2.1] at hst
    simp at hst
  | next o c hR ih => exact depClosed_step o c ih

theorem workingAssigned_step (o : GenOracle) (c : NodeName × SwarmState)
    (h : WorkingAssigned c.2) : WorkingAssigned (step o c).2 := by
  obtain ⟨nd, s⟩ := c
  cases nd with
  | sm_draft =>
    intro a ha hw
    rw [show (step o (NodeName.sm_draft, s)).2 = smDraftNode o.draft s
        from rfl, smDraftNode_agents] at ha
    exact h a ha hw
  | assign =>
    intro a ha hw
    rcases assignNode_agents_eq s with hEq | hEq
    · rw [show (step o (NodeName.assign, s)).2 = assignNode s from rfl,
        hEq] at ha
      exact h a ha hw
    · rw [show (step o (NodeName.assign, s)).2 = assignNode s from rfl,
        hEq, List.mem_map] at ha
      obtain ⟨a0, h0, hf⟩ := ha
      subst hf
      revert hw
      split
      · intro _; simp
      · intro hw; exact h a0 h0 hw
  | dev_swarm =>
    intro a ha hw
    rcases devSwarmNode_agents_eq o.dev s with hEq | ⟨ch, hEq⟩
    · rw [show (step o (NodeName.dev_swarm, s)).2 = devSwarmNode o.dev s
        from rfl, hEq] at ha
      exact h a ha hw
    · rw [show (step o (NodeName.dev_swarm, s)).2 = devSwarmNode o.dev s
        from rfl, hEq, List.mem_map] at ha
      obtain ⟨a0, h0, hf⟩ := ha
      subst hf
      revert hw
      split
      · intro hw; simp at hw
      · intro hw; exact h a0 h0 hw
  | qa_review =>
    intro a ha hw
    rw [show (step o (NodeName.qa_review, s)).2 = qaReviewNode o.review s
        from rfl, qaReviewNode_agents] at ha
    exact h a ha hw
  | integrate =>
    intro a ha hw
    rw [show (step o (NodeName.integrate, s)).2 = integrateNode s
        from rfl, integrateNode_agents] at ha
    exact h a ha hw
  | done => exact h

theorem reachable_workingAssigned (c : NodeName × SwarmState)
    (h : Reachable c) : WorkingAssigned c.2 := by
  induction h with
  | init s hI =>
    intro a ha hw
    have hidle := (hI.2.2.2.2.2.2 a ha).1
    rw [hidle] at hw
    exact AgentState.noConfusion hw
  | next o c hR ih => exact workingAssigned_step o c ih

/-- Claim C2 (confirmed): in every reachable configuration of a swarm run,
every completed story has each of its dependency ids carried by some story
in the completed set. -/
theorem c2_no_premature_completion (c : NodeName × SwarmState)
    (h : Reachable c) :
    ∀ st ∈ c.2.completedStories, ∀ d ∈ depIds st,
      ∃ cs ∈ c.2.completedStories, cs.id = d := by
  intro st hst d hd
  exact reachable_depClosed c h st (List.mem_append_right _ hst) d hd

theorem c2_witness :
    ((scenarioRun 5).2.completedStories.all fun st =>
      (depIds st).all fun d =>
        (scenarioRun 5).2.completedStories.any fun cs =>
          decide (cs.id = d)) = true := by
  have h := c2_no_premature_completion (scenarioRun 5) (reachable_scenarioRun 5)
  rw [List.all_eq_true]
  intro st hst
  rw [List.all_eq_true]
  intro d hd
  rw [List.any_eq_true]
  obtain ⟨cs, hcs, hid⟩ := h st hst d hd
  exact ⟨cs, hcs, by simp [hid]⟩

/-- Counterexample to claim C6: the configuration after the first execute
phase of the C1 scenario is reachable, and in it agent dev-1 has status
idle while its assigned-story field is still set (to A), contradicting
that idle holds iff the assignment is unset. -/
theorem c6_counterexample :
    Reachable (scenarioRun 3) ∧
    (scenarioRun 3).2.agents.any
      (fun a => decide (a.status = AgentState.idle) &&
        decide (a.assignedStory ≠ none)) = true :=
  ⟨reachable_scenarioRun 3, by decide⟩

/-- Claim C6 as amended: in every reachable configuration, a worker with
status working has its assigned-story field set; the converse direction of
the original claim fails (see the counterexample: a worker that finishes
execution returns to idle but keeps its stale assignment). -/
theorem c6_amended_working_has_assignment (c : NodeName × SwarmState)
    (h : Reachable c) :
    ∀ a ∈ c.2.agents, a.status = AgentState.working →
      a.assignedStory ≠ none :=
  reachable_workingAssigned c h

theorem c6_amended_witness :
    ((scenarioRun 2).2.agents.all fun a =>
      !(decide (a.status = AgentState.working)) ||
        decide (a.assignedStory ≠ none)) = true := by
  have h := c6_amended_working_has_assignment (scenarioRun 2)
    (reachable_scenarioRun 2)
  rw [List.all_eq_true]
  intro a ha
  by_cases hw : a.status = AgentState.working
  · simp [h a ha hw]
  · simp [hw]

theorem find?_map_eq {α β : Type} (f : α → β) (p : β → Bool) (l : List α) :
    (l.map f).find? p = (l.find? fun a => p (f a)).map f := by
  induction l with
  | nil => rfl
  | cons a l ih =>
    simp only [List.map_cons, List.find?]
    cases h : p (f a) with
    | true => rfl
    | false => simpa using ih

/-- In a zip whose left components have pairwise distinct keys, searching
by the key of the left component of a member pair finds exactly that
pair. -/
theorem zip_find?_left {α β : Type} (key : α → String) :
    ∀ (l : List α) (m : List β) (x : α) (y : β),
      (l.map key).Nodup → (x, y) ∈ l.zip m →
      (l.zip m).find? (fun p => decide (key p.1 = key x)) = some (x, y) := by
  intro l
  induction l with
  | nil =>
    intro m x y _ hm
    simp at hm
  | cons a l ih =>
    intro m x y hnd hm
    cases m with
    | nil => simp at hm
    | cons b mtl =>
      rw [List.zip_cons_cons] at hm ⊢
      rcases List.mem_cons.mp hm with heq | hm2
      · injection heq with h1 h2
        subst h1; subst h2
        rw [List.find?_cons_of_pos _ (by simp)]
      · have hx : x ∈ l := (List.of_mem_zip hm2).1
        have hne : ¬ key a = key x := by
          intro hEq
          have h1 : key x ∈ l.map key := List.mem_map_of_mem key hx
          rw [List.map_cons, List.nodup_cons] at hnd
          exact hnd.1 (hEq ▸ h1)
        rw [List.find?_cons_of_neg _ (by simp [hne])]
        exact ih mtl x y
          (by rw [List.map_cons, List.nodup_cons] at hnd; exact hnd.2) hm2

/-- In a zip whose right components have pairwise distinct keys, searching
by the key of the right component of a member pair finds exactly that
pair. -/
theorem zip_find?_right {α β : Type} (key : β → String) :
    ∀ (l : List α) (m : List β) (x : α) (y : β),
      (m.map key).Nodup → (x, y) ∈ l.zip m →
      (l.zip m).find? (fun p => decide (key p.2 = key y)) = some (x, y) := by
  intro l
  induction l with
  | nil =>
    intro m x y _ hm
    simp at hm
  | cons a l ih =>
    intro m x y hnd hm
    cases m with
    | nil => simp at hm
    | cons b mtl =>
      rw [List.zip_cons_cons] at hm ⊢
      rcases List.mem_cons.mp hm with heq | hm2
      · injection heq with h1 h2
        subst h1; subst h2
        rw [List.find?_cons_of_pos _ (by simp)]
      · have hy : y ∈ mtl := (List.of_mem_zip hm2).2
        have hne : ¬ key b = key y := by
          intro hEq
          have h1 : key y ∈ mtl.map key := List.mem_map_of_mem key hy
          rw [List.map_cons, List.nodup_cons] at hnd
          exact hnd.1 (hEq ▸ h1)
        rw [List.find?_cons_of_neg _ (by simp [hne])]
        exact ih mtl x y
          (by rw [List.map_cons, List.nodup_cons] at hnd; exact hnd.2) hm2

theorem nodup_unassigned (s : SwarmState)
    (hs : (s.activeStories.map fun st => st.id).Nodup) :
    ((unassignedOf s).map fun st => st.id).Nodup :=
  hs.sublist ((List.filter_sublist _).map _)

theorem nodup_idle (s : SwarmState)
    (ha : (s.agents.map fun a => a.id).Nodup) :
    ((idleOf s).map fun a => a.id).Nodup :=
  ha.sublist ((List.filter_sublist _).map _)

/-- Claim C5 as amended: for any state whose story ids and worker ids are
duplicate-free, the assign operation pairs the unassigned active items (in
their current active order) positionally with the idle workers in their
current roster order (not sorted by worker id), producing exactly
min(unassigned, idle) assignments; each assigned worker becomes working
with progress 0 and records the item id, each assigned item becomes
in_progress and records the worker id, and items and workers outside the
pairing are unchanged. -/
theorem c5_amended_roster_order_pairing (s : SwarmState)
    (hs : (s.activeStories.map fun st => st.id).Nodup)
    (ha : (s.agents.map fun a => a.id).Nodup) :
    (assignNode s).phase = SwarmPhase.execute ∧
    (pairsOf s).length = min (unassignedOf s).length (idleOf s).length ∧
    (∀ p ∈ pairsOf s,
      { p.1 with assignedAgent := some p.2.id
                 status := StoryStatus.in_progress } ∈
        (assignNode s).activeStories ∧
      { p.2 with status := AgentState.working
                 assignedStory := some p.1.id
                 progress := some 0 } ∈ (assignNode s).agents) ∧
    (∀ st ∈ s.activeStories, (∀ p ∈ pairsOf s, p.1.id ≠ st.id) →
      st ∈ (assignNode s).activeStories) ∧
    (∀ ag ∈ s.agents, (∀ p ∈ pairsOf s, p.2.id ≠ ag.id) →
      ag ∈ (assignNode s).agents) := by
  have hphase : (assignNode s).phase = SwarmPhase.execute := by
    unfold assignNode; split <;> rfl
  by_cases hcond : ((idleOf s).isEmpty || (unassignedOf s).isEmpty) = true
  · have hpairs : pairsOf s = [] := by
      have hor : (idleOf s).isEmpty = true ∨ (unassignedOf s).isEmpty = true
        := by simpa using hcond
      rcases hor with h | h
      · unfold pairsOf; rw [List.isEmpty_iff.mp h]; exact List.zip_nil_right
      · unfold pairsOf; rw [List.isEmpty_iff.mp h]; rfl
    have hstate : assignNode s = { s with phase := SwarmPhase.execute } := by
      unfold assignNode; rw [if_pos hcond]
    refine ⟨hphase, List.length_zip _ _, ?_, ?_, ?_⟩
    · intro p hp; rw [hpairs] at hp; simp at hp
    · intro st hst _; rw [hstate]; exact hst
    · intro ag hag _; rw [hstate]; exact hag
  · have hActive : (assignNode s).activeStories =
        s.activeStories.map (fun story =>
          match ((pairsOf s).map fun p => (p.1.id, p.2.id)).find?
              (fun a => decide (a.1 = story.id)) with
          | some a =>
            { story with assignedAgent := some a.2
                         status := StoryStatus.in_progress }
          | none => story) := by
      unfold assignNode; rw [if_neg hcond]
    have hAgents : (assignNode s).agents =
        s.agents.map (fun agent =>
          match ((pairsOf s).map fun p => (p.1.id, p.2.id)).find?
              (fun a => decide (a.2 = agent.id)) with
          | some a =>
            { agent with status := AgentState.working
                         assignedStory := some a.1
                         progress := some 0 }
          | none => agent) := by
      unfold assignNode; rw [if_neg hcond]
    refine ⟨hphase, List.length_zip _ _, ?_, ?_, ?_⟩
    · rintro ⟨st, ag⟩ hp
      have hInA : st ∈ s.activeStories :=
        List.mem_of_mem_filter (List.of_mem_zip hp).1
      have hInG : ag ∈ s.agents :=
        List.mem_of_mem_filter (List.of_mem_zip hp).2
      constructor
      · have h2 := zip_find?_left (fun t : Story => t.id) (unassignedOf s)
          (idleOf s) st ag (nodup_unassigned s hs) hp
        simp only [] at h2
        have hfind : (((pairsOf s).map fun p => (p.1.id, p.2.id)).find?
            fun a => decide (a.1 = st.id)) = some (st.id, ag.id) := by
          rw [find?_map_eq]
          simp only []
          rw [show (unassignedOf s).zip (idleOf s) = pairsOf s from rfl]
            at h2
          rw [h2]
          rfl
        rw [hActive]
        refine List.mem_map.mpr ⟨st, hInA, ?_⟩
        rw [hfind]
      · have h2 := zip_find?_right (fun t : AgentStatus => t.id)
          (unassignedOf s) (idleOf s) st ag (nodup_idle s ha) hp
        simp only [] at h2
        have hfind : (((pairsOf s).map fun p => (p.1.id, p.2.id)).find?
            fun a => decide (a.2 = ag.id)) = some (st.id, ag.id) := by
          rw [find?_map_eq]
          simp only []
          rw [show (unassignedOf s).zip (idleOf s) = pairsOf s from rfl]
            at h2
          rw [h2]
          rfl
        rw [hAgents]
        refine List.mem_map.mpr ⟨ag, hInG, ?_⟩
        rw [hfind]
    · intro st hst hnope
      rw [hActive]
      refine List.mem_map.mpr ⟨st, hst, ?_⟩
      have hnone : (((pairsOf s).map fun p => (p.1.id, p.2.id)).find?
          fun a => decide (a.1 = st.id)) = none := by
        rw [List.find?_eq_none]
        intro x hx
        rw [List.mem_map] at hx
        obtain ⟨p0, hp0, hgx⟩ := hx
        subst hgx
        simpa using hnope p0 hp0
      rw [hnone]
    · intro ag hag hnope
      rw [hAgents]
      refine List.mem_map.mpr ⟨ag, hag, ?_⟩
      have hnone : (((pairsOf s).map fun p => (p.1.id, p.2.id)).find?
          fun a => decide (a.2 = ag.id)) = none := by
        rw [List.find?_eq_none]
        intro x hx
        rw [List.mem_map] at hx
        obtain ⟨p0, hp0, hgx⟩ := hx
        subst hgx
        simpa using hnope p0 hp0
      rw [hnone]

theorem c5_amended_witness :
    { readyStory "S" with assignedAgent := some "dev-1"
                          status := StoryStatus.in_progress } ∈
      (assignNode c5WState).activeStories ∧
    { mkAgent 1 with status := AgentState.working
                     assignedStory := some "S"
                     progress := some 0 } ∈ (assignNode c5WState).agents :=
  (c5_amended_roster_order_pairing c5WState (by decide) (by decide)).2.2.1
    (readyStory "S", mkAgent 1) (by decide)

/-- Claim C7 as amended: in an execute phase over a duplicate-free roster,
a working worker whose generation fails produces no ChangeSet (every
change attributed to it predates the phase), keeps status working and its
assignment (so it is retried on the next execute cycle, not released to
idle), the active stories are untouched (the story stays active and stays
assigned), and every working worker whose generation parses and whose
assigned story is found still gets its ChangeSet. -/
theorem c7_amended_failed_worker_retries (gen : String → Option DevParsed)
    (s : SwarmState) (ha : (s.agents.map fun x => x.id).Nodup)
    (a : AgentStatus) (hmem : a ∈ s.agents)
    (hw : a.status = AgentState.working) (hf : gen a.id = none) :
    a ∈ (devSwarmNode gen s).agents ∧
    (∀ c ∈ (devSwarmNode gen s).codeChanges, c.agentId = a.id →
      c ∈ s.codeChanges) ∧
    (devSwarmNode gen s).activeStories = s.activeStories ∧
    (∀ b ∈ s.agents, b.status = AgentState.working →
      ∀ p, gen b.id = some p →
      ∀ st, s.activeStories.find?
          (fun t => decide (some t.id = b.assignedStory)) = some st →
      ∃ c ∈ (devSwarmNode gen s).codeChanges,
        c.agentId = b.id ∧ c.storyId = st.id) := by
  have hwa : a ∈ workingOf s :=
    List.mem_filter.mpr ⟨hmem, by simp [hw]⟩
  have hcond : ¬ ((workingOf s).isEmpty = true) := by
    intro hemp
    rw [List.isEmpty_iff.mp hemp] at hwa
    simp at hwa
  have keyNC : ∀ c ∈ newChangesOf gen s, ¬ c.agentId = a.id := by
    intro c hc hAc
    obtain ⟨w, hwmem, hFw⟩ := List.mem_filterMap.mp hc
    cases hfind : s.activeStories.find?
        (fun t => decide (some t.id = w.assignedStory)) with
    | none => rw [hfind] at hFw; cases hFw
    | some story =>
      rw [hfind] at hFw
      cases hgen : gen w.id with
      | none => rw [hgen] at hFw; cases hFw
      | some p =>
        rw [hgen] at hFw
        have hc2 := Option.some.inj hFw
        have hwid : w.id = a.id := by
          have h3 := hAc
          rw [← hc2] at h3
          exact h3
        have hweq : w = a := List.inj_on_of_nodup_map ha
          (List.mem_of_mem_filter hwmem) hmem hwid
        rw [hweq, hf] at hgen
        cases hgen
  have hEqA : (devSwarmNode gen s).agents =
      s.agents.map (fun agent =>
        if (newChangesOf gen s).any
            (fun c => decide (c.agentId = agent.id)) then
          { agent with status := AgentState.idle, progress := some 100 }
        else agent) := by
    unfold devSwarmNode; rw [if_neg hcond]
  have hEqC : (devSwarmNode gen s).codeChanges =
      s.codeChanges ++ newChangesOf gen s := by
    unfold devSwarmNode; rw [if_neg hcond]
  have hAny : ((newChangesOf gen s).any
      (fun c => decide (c.agentId = a.id))) = false := by
    rw [List.any_eq_false]
    intro c hc
    simpa using keyNC c hc
  refine ⟨?_, ?_, devSwarmNode_active gen s, ?_⟩
  · rw [hEqA]
    refine List.mem_map.mpr ⟨a, hmem, ?_⟩
    simp [hAny]
  · intro c hc hAc
    rw [hEqC] at hc
    rcases List.mem_append.mp hc with h | h
    · exact h
    · exact absurd hAc (keyNC c h)
  · intro b hb hbw p hp st hfind
    have hbwa : b ∈ workingOf s :=
      List.mem_filter.mpr ⟨hb, by simp [hbw]⟩
    refine ⟨({ storyId := st.id, agentId := b.id
               files := p.files ++ p.tests
               commitMessage := p.commitMessage
               status := ChangeStatus.pending } : CodeChange), ?_, rfl, rfl⟩
    rw [hEqC]
    refine List.mem_append_right _ (List.mem_filterMap.mpr ⟨b, hbwa, ?_⟩)
    rw [hfind, hp]
    rfl

theorem c7_amended_witness :
    workingAgent "dev-1" "S1" ∈ (devSwarmNode c7Gen c7State).agents ∧
    (∀ c ∈ (devSwarmNode c7Gen c7State).codeChanges,
      c.agentId = (workingAgent "dev-1" "S1").id →
      c ∈ c7State.codeChanges) ∧
    (devSwarmNode c7Gen c7State).activeStories = c7State.activeStories ∧
    (∀ b ∈ c7State.agents, b.status = AgentState.working →
      ∀ p, c7Gen b.id = some p →
      ∀ st, c7State.activeStories.find?
          (fun t => decide (some t.id = b.assignedStory)) = some st →
      ∃ c ∈ (devSwarmNode c7Gen c7State).codeChanges,
        c.agentId = b.id ∧ c.storyId = st.id) :=
  c7_amended_failed_worker_retries c7Gen c7State (by decide)
    (workingAgent "dev-1" "S1") (by decide) rfl rfl

end DevHive
